import Mathlib

/-!
Shallow embedding of the cell lifecycle and state-persistence engine of
src/main.ts (final D3.c iteration) of the D3-World-of-Bits repository.

Modelling conventions.  Geographic coordinates and the outputs of the
deterministic hash are exact rationals; token values are naturals.  The
JavaScript Map objects keyed by the string "i,j" are modelled as
association lists keyed by the CellId record itself: the encoding
(i, j) to "i,j" is injective, so the two key spaces are in bijection,
and the JS Map semantics (set replaces an existing binding in place and
otherwise appends, delete removes the binding, insertion order is kept)
are implemented literally on the association list.  The luck function is
an external pure hash from seed strings to [0,1) (consumed as an opaque
collaborator in the source) and is taken as a parameter everywhere.
Pure rendering-library calls (rectangle/marker drawing, tooltips,
setView, console logging, the status line) have no game-state effect and
are omitted; every persistent field of the visual objects (tokenValue,
token label, fill color, fill opacity, interactivity) is kept.
-/

structure CellId where
  i : Int
  j : Int
  deriving DecidableEq, Repr

/-- Persistent cell state, as stored in the state map (main.ts lines 46-50).
The source declares isPickedUp as an optional boolean; an absent field
behaves exactly as false, so it is modelled as a Bool. -/
structure Cell where
  id : CellId
  tokenValue : Nat
  isPickedUp : Bool
  deriving DecidableEq, Repr

/-- The game-relevant fields of a rendered cell (the GameCell rectangle of
main.ts lines 34-37 together with the style options set on it).  The token
label marker is modelled by the number it displays, none when absent. -/
structure GameCell where
  tokenValue : Nat
  tokenLabel : Option Nat
  fillColor : String
  fillOpacity : ℚ
  interactive : Bool
  deriving DecidableEq, Repr

/-- Association-list model of a JS Map keyed by CellId (standing for the
key string "i,j", see the header). -/
abbrev JsMap (α : Type) := List (CellId × α)

def jsGet {α : Type} (m : JsMap α) (k : CellId) : Option α :=
  (m.find? (fun p => decide (p.1 = k))).map Prod.snd

def jsHas {α : Type} (m : JsMap α) (k : CellId) : Bool :=
  (jsGet m k).isSome

/-- JS Map.set: replace the binding in place when the key is present,
append otherwise. -/
def jsSet {α : Type} (m : JsMap α) (k : CellId) (v : α) : JsMap α :=
  if jsHas m k then m.map (fun p => if p.1 = k then (k, v) else p)
  else m ++ [(k, v)]

/-- JS Map.delete. -/
def jsDelete {α : Type} (m : JsMap α) (k : CellId) : JsMap α :=
  m.filter (fun p => !decide (p.1 = k))

/-- Game constants (main.ts lines 97-104). -/
def CLASSROOM_LAT : ℚ := 36.997936938057016

def CLASSROOM_LNG : ℚ := -122.05703507501151

def CELL_SIZE_DEGREES : ℚ := 0.00008

def INTERACTION_RANGE : Nat := 3

def SPAWN_CHANCE : ℚ := 0.2

/-- Seed string passed to luck: [i, j, tag].toString() in JS is "i,j,tag". -/
def luckKey (c : CellId) (tag : String) : String :=
  toString c.i ++ "," ++ toString c.j ++ "," ++ tag

/-- main.ts lines 107-112. -/
def _latLngToCellId (lat lng : ℚ) : CellId :=
  { i := ⌊(lat - CLASSROOM_LAT) / CELL_SIZE_DEGREES⌋
    j := ⌊(lng - CLASSROOM_LNG) / CELL_SIZE_DEGREES⌋ }

/-- main.ts lines 122-129. -/
def cellIdToSWLatLng (cellId : CellId) : ℚ × ℚ :=
  (CLASSROOM_LAT + cellId.i * CELL_SIZE_DEGREES,
   CLASSROOM_LNG + cellId.j * CELL_SIZE_DEGREES)

/-- main.ts lines 132-135. -/
def cellIdToCenterLatLng (cellId : CellId) : ℚ × ℚ :=
  let sw := cellIdToSWLatLng cellId
  (sw.1 + CELL_SIZE_DEGREES / 2, sw.2 + CELL_SIZE_DEGREES / 2)

/-- Chebyshev distance between grid coordinates, as computed inline at
main.ts lines 207-210 and 359-362. -/
def chebyshevDist (a b : CellId) : Nat :=
  max (a.i - b.i).natAbs (a.j - b.j).natAbs

/-- main.ts lines 138-142. -/
def getCellColor (distance : Nat) : String :=
  if distance ≤ 2 then "#ffffff"
  else if distance ≤ 5 then "#4a9eff"
  else "#ff4a4a"

lemma floor_half_shift (x : ℤ) : ⌊(x : ℚ) + 1 / 2⌋ = x := by
  rw [Int.floor_int_add]
  norm_num

/-- C8: converting a cell's geographic center back to grid coordinates is
the identity: toGrid(center(coord)) = coord, with toGrid flooring
(lat - originLat)/cellSize and the center the midpoint of the cell's
bounds derived from origin + coord*cellSize. -/
theorem C8_center_roundtrip (c : CellId) :
    _latLngToCellId (cellIdToCenterLatLng c).1 (cellIdToCenterLatLng c).2 = c := by
  have hs : (CELL_SIZE_DEGREES : ℚ) ≠ 0 := by norm_num [CELL_SIZE_DEGREES]
  have hi : (CLASSROOM_LAT + c.i * CELL_SIZE_DEGREES + CELL_SIZE_DEGREES / 2
      - CLASSROOM_LAT) / CELL_SIZE_DEGREES = (c.i : ℚ) + 1 / 2 := by
    field_simp
    ring
  have hj : (CLASSROOM_LNG + c.j * CELL_SIZE_DEGREES + CELL_SIZE_DEGREES / 2
      - CLASSROOM_LNG) / CELL_SIZE_DEGREES = (c.j : ℚ) + 1 / 2 := by
    field_simp
    ring
  simp only [_latLngToCellId, cellIdToCenterLatLng, cellIdToSWLatLng]
  rw [hi, hj, floor_half_shift, floor_half_shift]

/-- The whole mutable game state: the held token (playerInventory),
player grid position, the persistent cell-state map, and the map of
currently rendered cells (main.ts lines 145-163). -/
structure GameState where
  playerInventory : Option Nat
  playerCellPosition : CellId
  cellStateMap : JsMap Cell
  visibleCells : JsMap GameCell
  deriving DecidableEq, Repr

/-- Effective displayed value of a stored cell: 0 when picked up,
otherwise the stored token value (the two return paths of
getCellTokenValue on a present entry, main.ts lines 176-183). -/
def effOf (cs : Cell) : Nat :=
  if cs.isPickedUp then 0 else cs.tokenValue

/-- main.ts lines 172-197: read the token value of a coordinate; on a
first read, generate 2 ^ floor(luck(i,j,value) * 3) and insert the entry.
Returns the value together with the (possibly extended) state map. -/
def getCellTokenValue (luck : String → ℚ) (stateMap : JsMap Cell)
    (cellId : CellId) : Nat × JsMap Cell :=
  match jsGet stateMap cellId with
  | some storedCell =>
      if storedCell.isPickedUp then (0, stateMap)
      else (storedCell.tokenValue, stateMap)
  | none =>
      let generatedValue := 2 ^ (⌊luck (luckKey cellId "value") * 3⌋).toNat
      (generatedValue,
       jsSet stateMap cellId
         { id := cellId, tokenValue := generatedValue, isPickedUp := false })

/-- main.ts lines 200-310 (without the click/tooltip closures, modelled
separately below): spawn-check the coordinate, read its token value, and
build the rendered cell.  The rectangle is created with interactive set
to true unconditionally (source comment: always interactive so clicks
work from any distance); the final fill opacity is 0.2 for an empty cell
and 0.7 otherwise; a label marker exists only when the value is
positive. -/
def createCell (luck : String → ℚ) (stateMap : JsMap Cell)
    (playerPos : CellId) (cellId : CellId) : Option GameCell × JsMap Cell :=
  if SPAWN_CHANCE ≤ luck (luckKey cellId "spawn") then (none, stateMap)
  else
    let distance := chebyshevDist cellId playerPos
    let r := getCellTokenValue luck stateMap cellId
    let tokenValue := r.1
    let marker : Option Nat := if 0 < tokenValue then some tokenValue else none
    let cellOpacity : ℚ := if tokenValue = 0 then 0.2 else 0.7
    (some { tokenValue := tokenValue
            tokenLabel := marker
            fillColor := getCellColor distance
            fillOpacity := cellOpacity
            interactive := true },
     r.2)

/-- The click handler closure bound in createCell (main.ts lines
259-306), acting on the rendered cell at the given coordinate.  A click
can only arrive on a cell that is actually on the map, i.e. present in
visibleCells.  updateStatus only rewrites the status line and is
omitted. -/
def clickCell (st : GameState) (cellId : CellId) : GameState :=
  match jsGet st.visibleCells cellId with
  | none => st
  | some cell =>
    match st.playerInventory with
    | none =>
        let cell2 : GameCell :=
          { cell with tokenValue := 0, tokenLabel := none, fillOpacity := 0.2 }
        let newStateMap :=
          match jsGet st.cellStateMap cellId with
          | some cellState =>
              jsSet st.cellStateMap cellId { cellState with isPickedUp := true }
          | none => st.cellStateMap
        { st with
          playerInventory := some cell.tokenValue
          cellStateMap := newStateMap
          visibleCells := jsSet st.visibleCells cellId cell2 }
    | some inv =>
        if inv = cell.tokenValue then
          let newValue := inv * 2
          let cell2 : GameCell :=
            { cell with tokenValue := newValue, tokenLabel := some newValue,
                        fillOpacity := 0.7 }
          let newStateMap :=
            match jsGet st.cellStateMap cellId with
            | some cellState =>
                jsSet st.cellStateMap cellId
                  { cellState with tokenValue := newValue, isPickedUp := false }
            | none => st.cellStateMap
          { st with
            playerInventory := none
            cellStateMap := newStateMap
            visibleCells := jsSet st.visibleCells cellId cell2 }
        else st

/-- main.ts lines 313-322: remove a rendered cell from the map and from
visibleCells; the state map is not touched. -/
def despawnCell (st : GameState) (cellKey : CellId) : GameState :=
  match jsGet st.visibleCells cellKey with
  | some _ => { st with visibleCells := jsDelete st.visibleCells cellKey }
  | none => st

/-- main.ts lines 356-365. -/
def updateCellColors (st : GameState) : GameState :=
  { st with
    visibleCells := st.visibleCells.map (fun p =>
      (p.1, { p.2 with
              fillColor := getCellColor (chebyshevDist p.1 st.playerCellPosition) })) }

/-- main.ts lines 479-483. -/
def isInRange (playerPos : CellId) (cellI cellJ : Int) : Bool :=
  decide ((cellI - playerPos.i).natAbs ≤ INTERACTION_RANGE) &&
    decide ((cellJ - playerPos.j).natAbs ≤ INTERACTION_RANGE)

/-- main.ts lines 368-374. -/
def updateCellInteractivity (st : GameState) : GameState :=
  { st with
    visibleCells := st.visibleCells.map (fun p =>
      (p.1, { p.2 with interactive := isInRange st.playerCellPosition p.1.i p.1.j })) }

/-- main.ts lines 456-476: shift the player position and recompute colors
and interactivity of every rendered cell.  The marker/setView calls and
console diagnostics have no game-state effect. -/
def movePlayer (st : GameState) (directionI directionJ : Int) : GameState :=
  let st1 := { st with
    playerCellPosition := { i := st.playerCellPosition.i + directionI
                            j := st.playerCellPosition.j + directionJ } }
  updateCellInteractivity (updateCellColors st1)

/-- Integer interval [lo, hi] as a list. -/
def intRange (lo hi : Int) : List Int :=
  (List.range (hi + 1 - lo).toNat).map (fun n => lo + n)

/-- The candidate coordinates enumerated by the nested spawn loop of the
moveend handler (main.ts lines 522-532). -/
def cellRange (minI maxI minJ maxJ : Int) : List CellId :=
  (intRange minI maxI).flatMap (fun i =>
    (intRange minJ maxJ).map (fun j => { i := i, j := j }))

/-- Body of the spawn loop for one candidate coordinate (main.ts lines
524-530): skip coordinates already rendered, otherwise createCell and
register the result when it spawned. -/
def spawnOne (luck : String → ℚ) (st : GameState) (c : CellId) : GameState :=
  if jsHas st.visibleCells c then st
  else
    let r := createCell luck st.cellStateMap st.playerCellPosition c
    match r.1 with
    | some cell =>
        { st with cellStateMap := r.2
                  visibleCells := jsSet st.visibleCells c cell }
    | none => { st with cellStateMap := r.2 }

/-- The despawn phase of the moveend handler (main.ts lines 534-543):
collect the keys of rendered cells outside the padded range, then
despawn each. -/
def despawnPhase (st : GameState) (minI maxI minJ maxJ : Int) : GameState :=
  let cellsToRemove := (st.visibleCells.filter (fun p =>
      decide (p.1.i < minI) || decide (maxI < p.1.i) ||
      decide (p.1.j < minJ) || decide (maxJ < p.1.j))).map Prod.fst
  cellsToRemove.foldl despawnCell st

/-- The moveend handler (main.ts lines 507-544), given the geographic
bounds the map reports: pad the grid range of the bounds by 2 in every
direction, spawn candidates in the padded range, then despawn rendered
cells outside that same padded range. -/
def moveendHandler (luck : String → ℚ) (st : GameState)
    (south west north east : ℚ) : GameState :=
  let swCellId := _latLngToCellId south west
  let neCellId := _latLngToCellId north east
  let minI := swCellId.i - 2
  let maxI := neCellId.i + 2
  let minJ := swCellId.j - 2
  let maxJ := neCellId.j + 2
  let st1 := (cellRange minI maxI minJ maxJ).foldl (spawnOne luck) st
  despawnPhase st1 minI maxI minJ maxJ

/-- The external events the core reacts to: a viewport change reported
with its geographic bounds, a click on a rendered cell, and a movement
button press. -/
inductive GameEvent where
  | moveend (south west north east : ℚ)
  | click (c : CellId)
  | move (di dj : Int)

def step (luck : String → ℚ) (st : GameState) : GameEvent → GameState
  | GameEvent.moveend s w n e => moveendHandler luck st s w n e
  | GameEvent.click c => clickCell st c
  | GameEvent.move di dj => movePlayer st di dj

/-- Initial state (main.ts lines 145-163): empty inventory, player at
the origin cell, both maps empty. -/
def initialState : GameState :=
  { playerInventory := none
    playerCellPosition := { i := 0, j := 0 }
    cellStateMap := []
    visibleCells := [] }

/-- A run of the game: fold the event trace from the initial state. -/
def run (luck : String → ℚ) (events : List GameEvent) : GameState :=
  events.foldl (step luck) initialState

section JsMapLemmas

variable {α : Type}

@[simp] lemma jsGet_nil (k : CellId) : jsGet ([] : JsMap α) k = none := rfl

lemma jsGet_cons (a : CellId) (v : α) (m : JsMap α) (k : CellId) :
    jsGet ((a, v) :: m) k = if a = k then some v else jsGet m k := by
  by_cases h : a = k
  · simp [jsGet, List.find?_cons_of_pos, h]
  · simp [jsGet, List.find?_cons_of_neg, h]

lemma jsHas_cons (a : CellId) (v : α) (m : JsMap α) (k : CellId) :
    jsHas ((a, v) :: m) k = if a = k then true else jsHas m k := by
  by_cases h : a = k <;> simp [jsHas, jsGet_cons, h]

lemma jsSet_cons_ne (a : CellId) (w : α) (m : JsMap α) (k : CellId) (v : α)
    (h : a ≠ k) : jsSet ((a, w) :: m) k v = (a, w) :: jsSet m k v := by
  by_cases hm : jsHas m k
  · simp [jsSet, jsHas_cons, h, hm]
  · simp [jsSet, jsHas_cons, h, hm]

lemma jsSet_cons_eq (w : α) (m : JsMap α) (k : CellId) (v : α) :
    jsSet ((k, w) :: m) k v =
      (k, v) :: m.map (fun p => if p.1 = k then (k, v) else p) := by
  simp [jsSet, jsHas_cons]

lemma jsGet_mapReplace_ne (m : JsMap α) (k c : CellId) (v : α) (h : c ≠ k) :
    jsGet (m.map (fun p => if p.1 = k then (k, v) else p)) c = jsGet m c := by
  induction m with
  | nil => rfl
  | cons a t ih =>
      obtain ⟨b, w⟩ := a
      by_cases hb : b = k
      · subst hb
        simp only [List.map_cons, if_pos rfl]
        rw [jsGet_cons, jsGet_cons, if_neg (fun hc => h hc.symm),
          if_neg (fun hc => h hc.symm), ih]
      · simp only [List.map_cons, if_neg hb]
        rw [jsGet_cons, jsGet_cons, ih]

lemma jsGet_jsSet_self (m : JsMap α) (k : CellId) (v : α) :
    jsGet (jsSet m k v) k = some v := by
  induction m with
  | nil => simp [jsSet, jsHas, jsGet]
  | cons a t ih =>
      obtain ⟨b, w⟩ := a
      by_cases hb : b = k
      · subst hb
        rw [jsSet_cons_eq, jsGet_cons, if_pos rfl]
      · rw [jsSet_cons_ne _ _ _ _ _ hb, jsGet_cons, if_neg hb, ih]

lemma jsGet_jsSet_ne (m : JsMap α) (k c : CellId) (v : α) (h : c ≠ k) :
    jsGet (jsSet m k v) c = jsGet m c := by
  induction m with
  | nil =>
      simp only [jsSet, jsHas, jsGet_nil, Option.isSome_none, Bool.false_eq_true,
        if_false, List.nil_append]
      rw [jsGet_cons, if_neg (fun hc => h hc.symm), jsGet_nil]
  | cons a t ih =>
      obtain ⟨b, w⟩ := a
      by_cases hb : b = k
      · subst hb
        rw [jsSet_cons_eq, jsGet_cons, if_neg (fun hc => h hc.symm),
          jsGet_mapReplace_ne _ _ _ _ h, jsGet_cons,
          if_neg (fun hc => h hc.symm)]
      · rw [jsSet_cons_ne _ _ _ _ _ hb, jsGet_cons, jsGet_cons, ih]

lemma jsGet_jsSet (m : JsMap α) (k c : CellId) (v : α) :
    jsGet (jsSet m k v) c = if c = k then some v else jsGet m c := by
  by_cases h : c = k
  · subst h; rw [if_pos rfl, jsGet_jsSet_self]
  · rw [if_neg h, jsGet_jsSet_ne _ _ _ _ h]

lemma jsGet_jsDelete (m : JsMap α) (k c : CellId) :
    jsGet (jsDelete m k) c = if c = k then none else jsGet m c := by
  induction m with
  | nil => by_cases h : c = k <;> simp [jsDelete, h]
  | cons a t ih =>
      obtain ⟨b, w⟩ := a
      have hunf : jsDelete ((b, w) :: t) k =
          (if b = k then jsDelete t k else (b, w) :: jsDelete t k) := by
        by_cases hb : b = k <;> simp [jsDelete, List.filter_cons, hb]
      rw [hunf]
      by_cases hb : b = k
      · rw [if_pos hb, ih]
        by_cases h : c = k
        · simp [h]
        · have hbc : ¬b = c := fun hx => h (hx ▸ hb)
          simp [h, jsGet_cons, hbc]
      · rw [if_neg hb]
        by_cases h : b = c
        · subst h
          simp [jsGet_cons, hb]
        · simp [jsGet_cons, h, ih]

lemma jsGet_mapVals (m : JsMap α) (f : CellId → α → α) (c : CellId) :
    jsGet (m.map (fun p => (p.1, f p.1 p.2))) c = (jsGet m c).map (f c) := by
  induction m with
  | nil => rfl
  | cons a t ih =>
      obtain ⟨b, w⟩ := a
      simp only [List.map_cons]
      rw [jsGet_cons, jsGet_cons]
      by_cases h : b = c
      · subst h; simp
      · rw [if_neg h, if_neg h, ih]

/-- Keys of a JsMap, in insertion order. -/
def jsKeys (m : JsMap α) : List CellId := m.map Prod.fst

lemma mem_jsKeys_iff (m : JsMap α) (c : CellId) :
    c ∈ jsKeys m ↔ (jsGet m c).isSome = true := by
  induction m with
  | nil => simp [jsKeys]
  | cons a t ih =>
      obtain ⟨b, w⟩ := a
      rw [jsGet_cons]
      by_cases h : b = c
      · subst h; simp [jsKeys]
      · simp only [jsKeys, List.map_cons, List.mem_cons, if_neg h] at ih ⊢
        constructor
        · rintro (hc | hc)
          · exact absurd hc.symm h
          · exact ih.mp hc
        · intro hc
          exact Or.inr (ih.mpr hc)

lemma jsKeys_jsSet_present (m : JsMap α) (k : CellId) (v : α)
    (h : jsHas m k = true) : jsKeys (jsSet m k v) = jsKeys m := by
  simp only [jsSet, if_pos h, jsKeys, List.map_map]
  apply List.map_congr_left
  intro p _
  by_cases hp : p.1 = k
  · simp [Function.comp, hp]
  · simp [Function.comp, hp]

lemma jsSet_absent (m : JsMap α) (k : CellId) (v : α)
    (h : jsHas m k = false) : jsSet m k v = m ++ [(k, v)] := by
  simp [jsSet, h]

lemma length_jsSet_present (m : JsMap α) (k : CellId) (v : α)
    (h : jsHas m k = true) : (jsSet m k v).length = m.length := by
  simp [jsSet, if_pos h]

end JsMapLemmas

/-- Concrete luck instance used by witness scenarios: the constant hash 0
(inside [0,1), passes the spawn check, generates token value 1 since
2 ^ floor(0 * 3) = 1). -/
def wLuck : String → ℚ := fun _ => 0

/-- Geographic point at the center of grid cell (0,0). -/
def wSouth0 : ℚ := CLASSROOM_LAT + CELL_SIZE_DEGREES / 2

def wWest0 : ℚ := CLASSROOM_LNG + CELL_SIZE_DEGREES / 2

/-- Viewport-change event whose reported bounds collapse to the center of
cell (0,0); the padded candidate range is then [-2,2] x [-2,2]. -/
def wMove0 : GameEvent := GameEvent.moveend wSouth0 wWest0 wSouth0 wWest0

/-- Geographic point at the center of grid cell (4,4). -/
def wSouth4 : ℚ := CLASSROOM_LAT + 4 * CELL_SIZE_DEGREES + CELL_SIZE_DEGREES / 2

def wWest4 : ℚ := CLASSROOM_LNG + 4 * CELL_SIZE_DEGREES + CELL_SIZE_DEGREES / 2

/-- Viewport-change event around the center of cell (4,4); the padded
candidate range is then [2,6] x [2,6], all far from the player at
(0,0). -/
def wMove4 : GameEvent := GameEvent.moveend wSouth4 wWest4 wSouth4 wWest4

/-- Render the 25 cells around the origin, pick up the token of (0,0),
then combine it onto the equal-valued cell (0,1): afterwards the held
token is empty again and cell (0,0) displays 0. -/
def wTracePre : List GameEvent :=
  [wMove0, GameEvent.click { i := 0, j := 0 }, GameEvent.click { i := 0, j := 1 }]

/-- wTracePre followed by a click on the emptied cell (0,0). -/
def wTraceZero : List GameEvent :=
  wTracePre ++ [GameEvent.click { i := 0, j := 0 }]

lemma gen_exponent_lt_three (q : ℚ) (h0 : 0 ≤ q) (h1 : q < 1) :
    (⌊q * 3⌋).toNat < 3 := by
  have hlow : (0 : ℤ) ≤ ⌊q * 3⌋ :=
    Int.floor_nonneg.mpr (mul_nonneg h0 (by norm_num))
  have hup : ⌊q * 3⌋ < (3 : ℤ) := by
    apply Int.floor_lt.mpr
    calc q * 3 < 1 * 3 := by nlinarith
    _ = ((3 : ℤ) : ℚ) := by norm_num
  omega

/-- C3: the first read of a coordinate absent from the Store computes
tokenValue = 2 ^ floor(luck(coord,value) * 3), which is one of 1, 2, 4,
and inserts the entry with pickedUp = false, touching no other
coordinate; a read of a present coordinate returns its effective value
and leaves the Store untouched; repeated reads return the same result
with no further side effect. -/
theorem C3_get_spec (luck : String → ℚ) (m : JsMap Cell) (c : CellId)
    (h0 : 0 ≤ luck (luckKey c "value")) (h1 : luck (luckKey c "value") < 1) :
    (jsGet m c = none →
      ((getCellTokenValue luck m c).1 = 1 ∨ (getCellTokenValue luck m c).1 = 2 ∨
        (getCellTokenValue luck m c).1 = 4) ∧
      (getCellTokenValue luck m c).1 =
        2 ^ (⌊luck (luckKey c "value") * 3⌋).toNat ∧
      jsGet (getCellTokenValue luck m c).2 c =
        some { id := c, tokenValue := (getCellTokenValue luck m c).1,
               isPickedUp := false } ∧
      (∀ k, k ≠ c → jsGet (getCellTokenValue luck m c).2 k = jsGet m k)) ∧
    (∀ cs, jsGet m c = some cs → getCellTokenValue luck m c = (effOf cs, m)) ∧
    getCellTokenValue luck (getCellTokenValue luck m c).2 c =
      getCellTokenValue luck m c := by
  refine ⟨fun habs => ?_, fun cs hcs => ?_, ?_⟩
  · have hval : (getCellTokenValue luck m c).1 =
        2 ^ (⌊luck (luckKey c "value") * 3⌋).toNat := by
      simp [getCellTokenValue, habs]
    refine ⟨?_, hval, ?_, ?_⟩
    · rw [hval]
      have h3 := gen_exponent_lt_three _ h0 h1
      interval_cases h : (⌊luck (luckKey c "value") * 3⌋).toNat <;> simp
    · simp [getCellTokenValue, habs, jsGet_jsSet_self]
    · intro k hk
      simp only [getCellTokenValue, habs]
      exact jsGet_jsSet_ne _ _ _ _ (fun h => hk h)
  · simp only [getCellTokenValue, hcs, effOf]
    by_cases hp : cs.isPickedUp <;> simp [hp]
  · match hm : jsGet m c with
    | some cs =>
        simp only [getCellTokenValue, hm]
        by_cases hp : cs.isPickedUp <;> simp [hp, getCellTokenValue, hm]
    | none =>
        simp [getCellTokenValue, hm, jsGet_jsSet_self]

/-- The origin coordinate, used by the concrete scenarios. -/
def cZero : CellId := { i := 0, j := 0 }

/-- The rendered state of cell (0,0) after its token has been picked up
in the wTracePre scenario. -/
def wCellZero : GameCell :=
  { tokenValue := 0, tokenLabel := none, fillColor := "#ffffff",
    fillOpacity := 0.2, interactive := true }

/-- C1 as amended: when the held token is null, a click on a rendered
cell unconditionally sets the held token to the cell's displayed value
(including 0 for a picked-up cell: the click is NOT a no-op on the held
slot), updates the visual cell to empty/dimmed, and, when a Store entry
exists for the coordinate, sets its isPickedUp flag to true while
leaving its tokenValue and every other Store entry unchanged; no
exception path exists (the handler is total). -/
theorem C1_pickup_amended (st : GameState) (c : CellId) (cell : GameCell)
    (hinv : st.playerInventory = none)
    (hvis : jsGet st.visibleCells c = some cell) :
    (clickCell st c).playerInventory = some cell.tokenValue ∧
    jsGet (clickCell st c).visibleCells c =
      some { cell with tokenValue := 0, tokenLabel := none, fillOpacity := 0.2 } ∧
    (∀ cs, jsGet st.cellStateMap c = some cs →
      jsGet (clickCell st c).cellStateMap c = some { cs with isPickedUp := true } ∧
      (∀ k, k ≠ c → jsGet (clickCell st c).cellStateMap k = jsGet st.cellStateMap k)) ∧
    (jsGet st.cellStateMap c = none →
      (clickCell st c).cellStateMap = st.cellStateMap) := by
  refine ⟨?_, ?_, fun cs hcs => ⟨?_, fun k hk => ?_⟩, fun habs => ?_⟩
  · simp [clickCell, hvis, hinv]
  · simp [clickCell, hvis, hinv, jsGet_jsSet_self]
  · simp [clickCell, hvis, hinv, hcs, jsGet_jsSet_self]
  · simp [clickCell, hvis, hinv, hcs, jsGet_jsSet_ne _ _ _ _ hk]
  · simp [clickCell, hvis, hinv, habs]

set_option maxRecDepth 100000 in
attribute [local semireducible] Rat.ofScientific Rat.add Rat.sub Rat.mul Rat.inv in
/-- C1 counterexample: in the concrete reachable state produced by
wTracePre the held token is null and cell (0,0) has effective value 0
(its token was picked up), yet clicking it sets the held token to 0
instead of leaving it null — the claimed no-op does not hold. -/
theorem C1_claim_counterexample :
    (run wLuck wTracePre).playerInventory = none ∧
    (jsGet (run wLuck wTracePre).visibleCells cZero).map GameCell.tokenValue =
      some 0 ∧
    (jsGet (run wLuck wTracePre).cellStateMap cZero).map effOf = some 0 ∧
    (clickCell (run wLuck wTracePre) cZero).playerInventory = some 0 := by
  exact ⟨by decide, by decide, by decide, by decide⟩

set_option maxRecDepth 100000 in
attribute [local semireducible] Rat.ofScientific Rat.add Rat.sub Rat.mul Rat.inv in
theorem C1_pickup_amended_witness :
    (clickCell (run wLuck wTracePre) cZero).playerInventory = some 0 ∧
    jsGet (clickCell (run wLuck wTracePre) cZero).cellStateMap cZero =
      some { id := cZero, tokenValue := 1, isPickedUp := true } := by
  have h := C1_pickup_amended (run wLuck wTracePre) cZero wCellZero
    (by decide) (by decide)
  exact ⟨h.1.trans (by decide),
    ((h.2.2.1 { id := cZero, tokenValue := 1, isPickedUp := true }
      (by decide)).1).trans (by decide)⟩

attribute [local semireducible] Rat.ofScientific Rat.add Rat.sub Rat.mul Rat.inv in
/-- C10: with a null held token a click stores the cell's displayed
value unconditionally — including the value 0 of an already-emptied cell
— so a held token of 0 is reachable (third conjunct: a concrete run
reaches it), and a subsequent click with held 0 on a cell displaying 0
takes the combine branch, leaving the Store entry with tokenValue 0 and
pickedUp = false. -/
theorem C10_zero_token_flow (st : GameState) (c : CellId) (cell : GameCell)
    (hvis : jsGet st.visibleCells c = some cell) :
    (st.playerInventory = none →
      (clickCell st c).playerInventory = some cell.tokenValue) ∧
    (st.playerInventory = some 0 → cell.tokenValue = 0 →
      ∀ cs, jsGet st.cellStateMap c = some cs →
        (clickCell st c).playerInventory = none ∧
        jsGet (clickCell st c).cellStateMap c =
          some { id := cs.id, tokenValue := 0, isPickedUp := false }) ∧
    (run wLuck wTraceZero).playerInventory = some 0 := by
  refine ⟨fun hinv => ?_, fun hinv hz cs hcs => ⟨?_, ?_⟩, ?_⟩
  · simp [clickCell, hvis, hinv]
  · simp [clickCell, hvis, hinv, hz]
  · simp [clickCell, hvis, hinv, hz, hcs, jsGet_jsSet_self]
  · clear hvis
    set_option maxRecDepth 100000 in decide

/-- Invariant tying the rendered cells to the Store: every rendered
cell has a Store entry whose effective value is exactly the displayed
value, and every rendered coordinate as well as every Store coordinate
passed the spawn check. -/
def MapsInv (luck : String → ℚ) (store : JsMap Cell)
    (vis : JsMap GameCell) : Prop :=
  (∀ c cell, jsGet vis c = some cell →
    ∃ cs, jsGet store c = some cs ∧ cell.tokenValue = effOf cs) ∧
  (∀ c, (jsGet vis c).isSome = true → luck (luckKey c "spawn") < SPAWN_CHANCE) ∧
  (∀ c, (jsGet store c).isSome = true → luck (luckKey c "spawn") < SPAWN_CHANCE)

def StateInv (luck : String → ℚ) (st : GameState) : Prop :=
  MapsInv luck st.cellStateMap st.visibleCells

lemma stateInv_clickCell (luck : String → ℚ) (st : GameState) (c : CellId)
    (h : StateInv luck st) : StateInv luck (clickCell st c) := by
  obtain ⟨h1, h2, h3⟩ := h
  cases hv : jsGet st.visibleCells c with
  | none =>
      have hred : clickCell st c = st := by simp [clickCell, hv]
      rw [hred]
      exact ⟨h1, h2, h3⟩
  | some cell =>
    obtain ⟨cs, hcs, hval⟩ := h1 c cell hv
    cases hp : st.playerInventory with
    | none =>
        have hred : clickCell st c = { st with
            playerInventory := some cell.tokenValue
            cellStateMap := jsSet st.cellStateMap c { cs with isPickedUp := true }
            visibleCells := jsSet st.visibleCells c
              { cell with tokenValue := 0, tokenLabel := none,
                          fillOpacity := 0.2 } } := by
          simp [clickCell, hv, hp, hcs]
        rw [hred]
        refine ⟨?_, ?_, ?_⟩
        · intro d cell2 hd
          by_cases hdc : d = c
          · subst hdc
            rw [jsGet_jsSet_self] at hd
            injection hd with hd
            subst hd
            exact ⟨{ cs with isPickedUp := true }, jsGet_jsSet_self _ _ _,
              by simp [effOf]⟩
          · rw [jsGet_jsSet_ne _ _ _ _ hdc] at hd
            obtain ⟨cs2, hcs2, hval2⟩ := h1 d cell2 hd
            exact ⟨cs2, by rw [jsGet_jsSet_ne _ _ _ _ hdc]; exact hcs2, hval2⟩
        · intro d hd
          by_cases hdc : d = c
          · exact h2 d (by rw [hdc, hv]; rfl)
          · rw [jsGet_jsSet_ne _ _ _ _ hdc] at hd
            exact h2 d hd
        · intro d hd
          by_cases hdc : d = c
          · exact h3 d (by rw [hdc, hcs]; rfl)
          · rw [jsGet_jsSet_ne _ _ _ _ hdc] at hd
            exact h3 d hd
    | some inv =>
        by_cases heq : inv = cell.tokenValue
        · have hred : clickCell st c = { st with
              playerInventory := none
              cellStateMap := jsSet st.cellStateMap c
                { cs with tokenValue := inv * 2, isPickedUp := false }
              visibleCells := jsSet st.visibleCells c
                { cell with tokenValue := inv * 2, tokenLabel := some (inv * 2),
                            fillOpacity := 0.7 } } := by
            simp [clickCell, hv, hp, hcs, if_pos heq]
          rw [hred]
          refine ⟨?_, ?_, ?_⟩
          · intro d cell2 hd
            by_cases hdc : d = c
            · subst hdc
              rw [jsGet_jsSet_self] at hd
              injection hd with hd
              subst hd
              exact ⟨{ cs with tokenValue := inv * 2, isPickedUp := false },
                jsGet_jsSet_self _ _ _, by simp [effOf]⟩
            · rw [jsGet_jsSet_ne _ _ _ _ hdc] at hd
              obtain ⟨cs2, hcs2, hval2⟩ := h1 d cell2 hd
              exact ⟨cs2, by rw [jsGet_jsSet_ne _ _ _ _ hdc]; exact hcs2, hval2⟩
          · intro d hd
            by_cases hdc : d = c
            · exact h2 d (by rw [hdc, hv]; rfl)
            · rw [jsGet_jsSet_ne _ _ _ _ hdc] at hd
              exact h2 d hd
          · intro d hd
            by_cases hdc : d = c
            · exact h3 d (by rw [hdc, hcs]; rfl)
            · rw [jsGet_jsSet_ne _ _ _ _ hdc] at hd
              exact h3 d hd
        · have hred : clickCell st c = st := by
            simp [clickCell, hv, hp, if_neg heq]
          rw [hred]
          exact ⟨h1, h2, h3⟩

lemma stateInv_despawnCell (luck : String → ℚ) (st : GameState) (k : CellId)
    (h : StateInv luck st) : StateInv luck (despawnCell st k) := by
  obtain ⟨h1, h2, h3⟩ := h
  cases hv : jsGet st.visibleCells k with
  | none =>
      have hred : despawnCell st k = st := by simp [despawnCell, hv]
      rw [hred]
      exact ⟨h1, h2, h3⟩
  | some g =>
      have hred : despawnCell st k =
          { st with visibleCells := jsDelete st.visibleCells k } := by
        simp [despawnCell, hv]
      rw [hred]
      refine ⟨?_, ?_, h3⟩
      · intro d cell hd
        rw [jsGet_jsDelete] at hd
        by_cases hdk : d = k
        · rw [if_pos hdk] at hd; exact absurd hd (by simp)
        · rw [if_neg hdk] at hd; exact h1 d cell hd
      · intro d hd
        rw [jsGet_jsDelete] at hd
        by_cases hdk : d = k
        · rw [if_pos hdk] at hd; simp at hd
        · rw [if_neg hdk] at hd; exact h2 d hd

lemma stateInv_spawnOne (luck : String → ℚ) (st : GameState) (c : CellId)
    (h : StateInv luck st) : StateInv luck (spawnOne luck st c) := by
  obtain ⟨h1, h2, h3⟩ := h
  by_cases hvis : jsHas st.visibleCells c
  · have hred : spawnOne luck st c = st := by simp [spawnOne, hvis]
    rw [hred]
    exact ⟨h1, h2, h3⟩
  · by_cases hsp : SPAWN_CHANCE ≤ luck (luckKey c "spawn")
    · have hred : spawnOne luck st c = st := by
        simp [spawnOne, hvis, createCell, hsp]
      rw [hred]
      exact ⟨h1, h2, h3⟩
    · have hlt : luck (luckKey c "spawn") < SPAWN_CHANCE := not_le.mp hsp
      cases hg : jsGet st.cellStateMap c with
      | some cs =>
          by_cases hpick : cs.isPickedUp
          · have hred : spawnOne luck st c = { st with
                visibleCells := jsSet st.visibleCells c
                  { tokenValue := 0, tokenLabel := none
                    fillColor := getCellColor (chebyshevDist c st.playerCellPosition)
                    fillOpacity := 0.2, interactive := true } } := by
              simp [spawnOne, hvis, createCell, hsp, getCellTokenValue, hg, hpick]
            rw [hred]
            refine ⟨?_, ?_, h3⟩
            · intro d cell hd
              by_cases hdc : d = c
              · subst hdc
                rw [jsGet_jsSet_self] at hd
                injection hd with hd
                subst hd
                exact ⟨cs, hg, by simp [effOf, hpick]⟩
              · rw [jsGet_jsSet_ne _ _ _ _ hdc] at hd
                exact h1 d cell hd
            · intro d hd
              by_cases hdc : d = c
              · rw [hdc]; exact hlt
              · rw [jsGet_jsSet_ne _ _ _ _ hdc] at hd
                exact h2 d hd
          · have hred : spawnOne luck st c = { st with
                visibleCells := jsSet st.visibleCells c
                  { tokenValue := cs.tokenValue
                    tokenLabel := if 0 < cs.tokenValue then some cs.tokenValue
                      else none
                    fillColor := getCellColor (chebyshevDist c st.playerCellPosition)
                    fillOpacity := if cs.tokenValue = 0 then 0.2 else 0.7
                    interactive := true } } := by
              simp [spawnOne, hvis, createCell, hsp, getCellTokenValue, hg, hpick]
            rw [hred]
            refine ⟨?_, ?_, h3⟩
            · intro d cell hd
              by_cases hdc : d = c
              · subst hdc
                rw [jsGet_jsSet_self] at hd
                injection hd with hd
                subst hd
                exact ⟨cs, hg, by simp [effOf, hpick]⟩
              · rw [jsGet_jsSet_ne _ _ _ _ hdc] at hd
                exact h1 d cell hd
            · intro d hd
              by_cases hdc : d = c
              · rw [hdc]; exact hlt
              · rw [jsGet_jsSet_ne _ _ _ _ hdc] at hd
                exact h2 d hd
      | none =>
          have hred : spawnOne luck st c = { st with
              cellStateMap := jsSet st.cellStateMap c
                { id := c
                  tokenValue := 2 ^ (⌊luck (luckKey c "value") * 3⌋).toNat
                  isPickedUp := false }
              visibleCells := jsSet st.visibleCells c
                { tokenValue := 2 ^ (⌊luck (luckKey c "value") * 3⌋).toNat
                  tokenLabel := some (2 ^ (⌊luck (luckKey c "value") * 3⌋).toNat)
                  fillColor := getCellColor (chebyshevDist c st.playerCellPosition)
                  fillOpacity := 0.7, interactive := true } } := by
            simp [spawnOne, hvis, createCell, hsp, getCellTokenValue, hg,
              Nat.pos_pow_of_pos, pow_eq_zero_iff]
          rw [hred]
          refine ⟨?_, ?_, ?_⟩
          · intro d cell hd
            by_cases hdc : d = c
            · subst hdc
              rw [jsGet_jsSet_self] at hd
              injection hd with hd
              subst hd
              exact ⟨_, jsGet_jsSet_self _ _ _, by simp [effOf]⟩
            · rw [jsGet_jsSet_ne _ _ _ _ hdc] at hd
              obtain ⟨cs2, hcs2, hval2⟩ := h1 d cell hd
              exact ⟨cs2, by rw [jsGet_jsSet_ne _ _ _ _ hdc]; exact hcs2, hval2⟩
          · intro d hd
            by_cases hdc : d = c
            · rw [hdc]; exact hlt
            · rw [jsGet_jsSet_ne _ _ _ _ hdc] at hd
              exact h2 d hd
          · intro d hd
            by_cases hdc : d = c
            · rw [hdc]; exact hlt
            · rw [jsGet_jsSet_ne _ _ _ _ hdc] at hd
              exact h3 d hd

lemma mapsInv_mapVals (luck : String → ℚ) (store : JsMap Cell)
    (vis : JsMap GameCell) (f : CellId → GameCell → GameCell)
    (hf : ∀ c g, (f c g).tokenValue = g.tokenValue)
    (h : MapsInv luck store vis) :
    MapsInv luck store (vis.map (fun p => (p.1, f p.1 p.2))) := by
  obtain ⟨h1, h2, h3⟩ := h
  refine ⟨?_, ?_, h3⟩
  · intro c cell hc
    rw [jsGet_mapVals] at hc
    cases hv : jsGet vis c with
    | none => rw [hv] at hc; exact absurd hc (by simp)
    | some g =>
        rw [hv] at hc
        injection hc with hc
        obtain ⟨cs, hcs, hval⟩ := h1 c g hv
        exact ⟨cs, hcs, by rw [← hc, hf, hval]⟩
  · intro c hc
    rw [jsGet_mapVals] at hc
    cases hv : jsGet vis c with
    | none => rw [hv] at hc; exact absurd hc (by simp)
    | some g => exact h2 c (by rw [hv]; rfl)

lemma stateInv_movePlayer (luck : String → ℚ) (st : GameState)
    (dI dJ : Int) (h : StateInv luck st) :
    StateInv luck (movePlayer st dI dJ) := by
  have h1 : StateInv luck { st with
      playerCellPosition := { i := st.playerCellPosition.i + dI
                              j := st.playerCellPosition.j + dJ } } := h
  have h2 := mapsInv_mapVals luck _ _
    (fun c g => { g with fillColor := getCellColor (chebyshevDist c
      ⟨st.playerCellPosition.i + dI, st.playerCellPosition.j + dJ⟩) })
    (fun _ _ => rfl) h1
  exact mapsInv_mapVals luck _ _
    (fun c g => { g with interactive := (isInRange
      ⟨st.playerCellPosition.i + dI, st.playerCellPosition.j + dJ⟩ c.i c.j) })
    (fun _ _ => rfl) h2

lemma stateInv_foldl {β : Type} (luck : String → ℚ)
    (f : GameState → β → GameState)
    (hf : ∀ s b, StateInv luck s → StateInv luck (f s b)) :
    ∀ (l : List β) (s : GameState), StateInv luck s →
      StateInv luck (l.foldl f s) := by
  intro l
  induction l with
  | nil => intro s h; exact h
  | cons b t ih => intro s h; exact ih _ (hf s b h)

lemma stateInv_moveend (luck : String → ℚ) (st : GameState)
    (south west north east : ℚ) (h : StateInv luck st) :
    StateInv luck (moveendHandler luck st south west north east) := by
  unfold moveendHandler despawnPhase
  apply stateInv_foldl luck despawnCell
    (fun s b hs => stateInv_despawnCell luck s b hs)
  apply stateInv_foldl luck (spawnOne luck)
    (fun s b hs => stateInv_spawnOne luck s b hs)
  exact h

lemma stateInv_step (luck : String → ℚ) (st : GameState) (e : GameEvent)
    (h : StateInv luck st) : StateInv luck (step luck st e) := by
  cases e with
  | moveend s w n e => exact stateInv_moveend luck st s w n e h
  | click c => exact stateInv_clickCell luck st c h
  | move di dj => exact stateInv_movePlayer luck st di dj h

lemma stateInv_initial (luck : String → ℚ) : StateInv luck initialState := by
  refine ⟨?_, ?_, ?_⟩ <;> intro c <;> simp [initialState]

/-- Every reachable state satisfies the coherence and spawn-gating
invariant. -/
lemma stateInv_run (luck : String → ℚ) (es : List GameEvent) :
    StateInv luck (run luck es) :=
  stateInv_foldl luck (step luck) (stateInv_step luck) es initialState
    (stateInv_initial luck)

/-- C9: in every reachable state, every rendered coordinate and every
Store coordinate satisfies the spawn predicate
luck(coord,spawn) < SPAWN_CHANCE: a coordinate that fails the spawn
check is never rendered and never enters the Store through the render
path (in the modelled system the Store is only ever written through
rendering and clicks on rendered cells, so this covers all Store
entries). -/
theorem C9_spawn_gated (luck : String → ℚ) (es : List GameEvent) (c : CellId) :
    ((jsGet (run luck es).visibleCells c).isSome = true →
      luck (luckKey c "spawn") < SPAWN_CHANCE) ∧
    ((jsGet (run luck es).cellStateMap c).isSome = true →
      luck (luckKey c "spawn") < SPAWN_CHANCE) :=
  ⟨fun h => (stateInv_run luck es).2.1 c h,
   fun h => (stateInv_run luck es).2.2 c h⟩

set_option maxRecDepth 100000 in
attribute [local semireducible] Rat.ofScientific Rat.add Rat.sub Rat.mul Rat.inv in
theorem C9_spawn_gated_witness :
    ((jsGet (run wLuck [wMove0]).visibleCells cZero).isSome = true) ∧
    wLuck (luckKey cZero "spawn") < SPAWN_CHANCE :=
  ⟨by decide, (C9_spawn_gated wLuck [wMove0] cZero).1 (by decide)⟩

/-- C2: in any reachable state holding value v, clicking a rendered cell
whose effective value (from the Store) equals v empties the held slot
and stores tokenValue 2v with pickedUp = false at that coordinate;
clicking a rendered cell whose effective value w differs from v (w
nonzero) changes nothing at all. -/
theorem C2_combine (luck : String → ℚ) (es : List GameEvent) (c : CellId)
    (v w : Nat) (cell : GameCell)
    (hinv : (run luck es).playerInventory = some v)
    (hvis : jsGet (run luck es).visibleCells c = some cell)
    (heff : (jsGet (run luck es).cellStateMap c).map effOf = some w) :
    (w = v →
      (clickCell (run luck es) c).playerInventory = none ∧
      (jsGet (clickCell (run luck es) c).cellStateMap c).map
        (fun cs => (cs.tokenValue, cs.isPickedUp)) = some (2 * v, false)) ∧
    (w ≠ v → w ≠ 0 → clickCell (run luck es) c = run luck es) := by
  obtain ⟨cs, hcs, hval⟩ := (stateInv_run luck es).1 c cell hvis
  have hw : effOf cs = w := by
    rw [hcs] at heff
    exact Option.some.inj heff
  have hcellval : cell.tokenValue = w := by rw [hval, hw]
  constructor
  · intro hwv
    subst hwv
    have heqv : w = cell.tokenValue := hcellval.symm
    have hred : clickCell (run luck es) c = { run luck es with
        playerInventory := none
        cellStateMap := jsSet (run luck es).cellStateMap c
          { cs with tokenValue := w * 2, isPickedUp := false }
        visibleCells := jsSet (run luck es).visibleCells c
          { cell with tokenValue := w * 2, tokenLabel := some (w * 2),
                      fillOpacity := 0.7 } } := by
      simp [clickCell, hvis, hinv, hcs, if_pos heqv]
    rw [hred]
    refine ⟨rfl, ?_⟩
    rw [jsGet_jsSet_self]
    simp [Nat.mul_comm]
  · intro hne _
    have hneq : ¬ v = cell.tokenValue := by
      rw [hcellval]
      exact fun hx => hne (hx.symm)
    simp [clickCell, hvis, hinv, if_neg hneq]

set_option maxRecDepth 100000 in
attribute [local semireducible] Rat.ofScientific Rat.add Rat.sub Rat.mul Rat.inv in
theorem C2_combine_witness :
    (clickCell (run wLuck [wMove0, GameEvent.click cZero]) { i := 0, j := 1 }).playerInventory
      = none ∧
    (jsGet (clickCell (run wLuck [wMove0, GameEvent.click cZero]) { i := 0, j := 1 }).cellStateMap
        { i := 0, j := 1 }).map (fun cs => (cs.tokenValue, cs.isPickedUp)) =
      some (2 * 1, false) :=
  (C2_combine wLuck [wMove0, GameEvent.click cZero] { i := 0, j := 1 } 1 1
    { tokenValue := 1, tokenLabel := some 1, fillColor := "#ffffff",
      fillOpacity := 0.7, interactive := true }
    (by decide) (by decide) (by decide)).1 rfl

/-- C5: despawning a cell never touches the Store; respawning a
coordinate whose Store entry exists does not regenerate a token (the
Store is returned unchanged) and the reconstructed visual cell displays
exactly the Store entry's effective value — in particular, after a
pick-up the respawned cell is empty: displayed value 0, no label, and
dimmed opacity 0.2. -/
theorem C5_memento (luck : String → ℚ) (st : GameState) (c k pos : CellId)
    (cs : Cell) (hm : jsGet st.cellStateMap c = some cs)
    (hs : luck (luckKey c "spawn") < SPAWN_CHANCE) :
    ((despawnCell st k).cellStateMap = st.cellStateMap) ∧
    ((createCell luck st.cellStateMap pos c).2 = st.cellStateMap) ∧
    (∃ gc, (createCell luck st.cellStateMap pos c).1 = some gc ∧
      gc.tokenValue = effOf cs ∧
      (cs.isPickedUp = true →
        gc.tokenValue = 0 ∧ gc.tokenLabel = none ∧ gc.fillOpacity = 0.2)) := by
  have hns : ¬ SPAWN_CHANCE ≤ luck (luckKey c "spawn") := not_le.mpr hs
  refine ⟨?_, ?_, ?_⟩
  · cases hv : jsGet st.visibleCells k <;> simp [despawnCell, hv]
  · by_cases hp : cs.isPickedUp <;>
      simp [createCell, hns, getCellTokenValue, hm, hp]
  · by_cases hp : cs.isPickedUp
    · refine ⟨{ tokenValue := 0, tokenLabel := none,
                fillColor := getCellColor (chebyshevDist c pos),
                fillOpacity := 0.2, interactive := true }, ?_, ?_, ?_⟩
      · simp [createCell, hns, getCellTokenValue, hm, hp]
      · simp [effOf, hp]
      · intro _
        exact ⟨rfl, rfl, rfl⟩
    · refine ⟨{ tokenValue := cs.tokenValue,
                tokenLabel := (if 0 < cs.tokenValue then some cs.tokenValue
                  else none),
                fillColor := getCellColor (chebyshevDist c pos),
                fillOpacity := (if cs.tokenValue = 0 then 0.2 else 0.7),
                interactive := true }, ?_, ?_, ?_⟩
      · simp [createCell, hns, getCellTokenValue, hm, hp]
      · simp [effOf, hp]
      · intro hcontra
        exact absurd hcontra (by simpa using hp)

set_option maxRecDepth 100000 in
attribute [local semireducible] Rat.ofScientific Rat.add Rat.sub Rat.mul Rat.inv in
theorem C5_memento_witness :
    ((despawnCell (run wLuck wTracePre) cZero).cellStateMap =
      (run wLuck wTracePre).cellStateMap) ∧
    ((createCell wLuck (run wLuck wTracePre).cellStateMap cZero cZero).2 =
      (run wLuck wTracePre).cellStateMap) ∧
    (∃ gc, (createCell wLuck (run wLuck wTracePre).cellStateMap cZero cZero).1 =
        some gc ∧ gc.tokenValue = 0 ∧ gc.tokenLabel = none ∧
        gc.fillOpacity = 0.2) := by
  have h := C5_memento wLuck (run wLuck wTracePre) cZero cZero cZero
    { id := cZero, tokenValue := 1, isPickedUp := true } (by decide) (by decide)
  obtain ⟨gc, hgc, hval, hpick⟩ := h.2.2
  obtain ⟨hz, hlab, hop⟩ := hpick rfl
  exact ⟨h.1, h.2.1, ⟨gc, hgc, hz, hlab, hop⟩⟩

lemma despawnCell_cellStateMap (st : GameState) (k : CellId) :
    (despawnCell st k).cellStateMap = st.cellStateMap := by
  cases hv : jsGet st.visibleCells k <;> simp [despawnCell, hv]

lemma jsGet_despawnCell (st : GameState) (k c : CellId) :
    jsGet (despawnCell st k).visibleCells c =
      if c = k then none else jsGet st.visibleCells c := by
  cases hv : jsGet st.visibleCells k with
  | none =>
      have hred : despawnCell st k = st := by simp [despawnCell, hv]
      rw [hred]
      by_cases hck : c = k
      · rw [if_pos hck, hck, hv]
      · rw [if_neg hck]
  | some g =>
      have hred : despawnCell st k =
          { st with visibleCells := jsDelete st.visibleCells k } := by
        simp [despawnCell, hv]
      rw [hred]
      exact jsGet_jsDelete _ _ _

lemma jsGet_foldl_despawnCell (ks : List CellId) : ∀ (st : GameState)
    (c : CellId), jsGet ((ks.foldl despawnCell st).visibleCells) c =
      if c ∈ ks then none else jsGet st.visibleCells c := by
  induction ks with
  | nil => intro st c; simp
  | cons k t ih =>
      intro st c
      rw [List.foldl_cons, ih, jsGet_despawnCell]
      by_cases hct : c ∈ t
      · simp [hct]
      · by_cases hck : c = k
        · simp [hct, hck]
        · simp [hct, hck]

lemma foldl_despawnCell_cellStateMap (ks : List CellId) : ∀ (st : GameState),
    ((ks.foldl despawnCell st).cellStateMap) = st.cellStateMap := by
  induction ks with
  | nil => intro st; rfl
  | cons k t ih =>
      intro st
      rw [List.foldl_cons, ih, despawnCell_cellStateMap]

lemma mem_filterKeys_iff (vis : JsMap GameCell) (q : CellId → Bool)
    (c : CellId) :
    (c ∈ (vis.filter (fun p => q p.1)).map Prod.fst) ↔
      ((jsGet vis c).isSome = true ∧ q c = true) := by
  constructor
  · intro hc
    obtain ⟨p, hp, hfst⟩ := List.mem_map.mp hc
    obtain ⟨hpmem, hq⟩ := List.mem_filter.mp hp
    subst hfst
    exact ⟨(mem_jsKeys_iff vis p.1).mp (List.mem_map.mpr ⟨p, hpmem, rfl⟩), hq⟩
  · rintro ⟨hs, hq⟩
    obtain ⟨p, hp, hfst⟩ := List.mem_map.mp ((mem_jsKeys_iff vis c).mpr hs)
    exact List.mem_map.mpr
      ⟨p, List.mem_filter.mpr ⟨hp, by rw [hfst]; exact hq⟩, hfst⟩

/-- Whether a coordinate is inside the padded candidate box of a
viewport. -/
def inPaddedBox (minI maxI minJ maxJ : Int) (c : CellId) : Prop :=
  minI ≤ c.i ∧ c.i ≤ maxI ∧ minJ ≤ c.j ∧ c.j ≤ maxJ

lemma isSome_despawnPhase (st : GameState) (minI maxI minJ maxJ : Int)
    (c : CellId) :
    ((jsGet (despawnPhase st minI maxI minJ maxJ).visibleCells c).isSome = true)
      ↔ ((jsGet st.visibleCells c).isSome = true ∧
          inPaddedBox minI maxI minJ maxJ c) := by
  unfold despawnPhase
  rw [jsGet_foldl_despawnCell]
  have hmem := mem_filterKeys_iff st.visibleCells
    (fun d => decide (d.i < minI) || decide (maxI < d.i) ||
      decide (d.j < minJ) || decide (maxJ < d.j)) c
  by_cases hc : c ∈ (st.visibleCells.filter (fun p =>
      decide (p.1.i < minI) || decide (maxI < p.1.i) ||
      decide (p.1.j < minJ) || decide (maxJ < p.1.j))).map Prod.fst
  · rw [if_pos hc]
    obtain ⟨hsome, hout⟩ := hmem.mp hc
    simp only [Bool.or_eq_true, decide_eq_true_eq] at hout
    simp only [Option.isSome_none, Bool.false_eq_true, false_iff]
    rintro ⟨-, h1, h2, h3, h4⟩
    rcases hout with ((ho | ho) | ho) | ho <;> omega
  · rw [if_neg hc]
    constructor
    · intro hsome
      refine ⟨hsome, ?_⟩
      by_contra hbox
      apply hc
      apply hmem.mpr
      refine ⟨hsome, ?_⟩
      simp only [inPaddedBox, not_and_or, not_le] at hbox
      simp only [Bool.or_eq_true, decide_eq_true_eq]
      rcases hbox with hb | hb | hb | hb
      · exact Or.inl (Or.inl (Or.inl hb))
      · exact Or.inl (Or.inl (Or.inr hb))
      · exact Or.inl (Or.inr hb)
      · exact Or.inr hb
    · exact fun h => h.1

lemma isSome_spawnOne_mono (luck : String → ℚ) (st : GameState)
    (c d : CellId) (h : (jsGet st.visibleCells d).isSome = true) :
    (jsGet (spawnOne luck st c).visibleCells d).isSome = true := by
  by_cases hvis : jsHas st.visibleCells c
  · have hred : spawnOne luck st c = st := by simp [spawnOne, hvis]
    rw [hred]; exact h
  · cases hc : (createCell luck st.cellStateMap st.playerCellPosition c).1 with
    | none =>
        have hred : (spawnOne luck st c).visibleCells = st.visibleCells := by
          simp [spawnOne, hvis, hc]
        rw [hred]; exact h
    | some g =>
        have hred : (spawnOne luck st c).visibleCells =
            jsSet st.visibleCells c g := by
          simp [spawnOne, hvis, hc]
        rw [hred, jsGet_jsSet]
        by_cases hdc : d = c
        · rw [if_pos hdc]; rfl
        · rw [if_neg hdc]; exact h

lemma isSome_spawnFold_mono (luck : String → ℚ) (l : List CellId) :
    ∀ (st : GameState) (d : CellId),
      (jsGet st.visibleCells d).isSome = true →
      (jsGet ((l.foldl (spawnOne luck) st)).visibleCells d).isSome = true := by
  induction l with
  | nil => intro st d h; exact h
  | cons k t ih =>
      intro st d h
      rw [List.foldl_cons]
      exact ih _ d (isSome_spawnOne_mono luck st k d h)

/-- C6 as amended: on a viewport change a currently rendered coordinate
stays rendered exactly when it lies inside the PADDED bounds (the grid
box of the reported bounds expanded by the padding 2 on every side) —
not the unpadded bounds: rendered coordinates outside the padded box are
destroyed, all others are kept. -/
theorem C6_despawn_amended (luck : String → ℚ) (st : GameState)
    (south west north east : ℚ) (c : CellId)
    (h : (jsGet st.visibleCells c).isSome = true) :
    ((jsGet (moveendHandler luck st south west north east).visibleCells c).isSome
        = true) ↔
      inPaddedBox ((_latLngToCellId south west).i - 2)
        ((_latLngToCellId north east).i + 2)
        ((_latLngToCellId south west).j - 2)
        ((_latLngToCellId north east).j + 2) c := by
  unfold moveendHandler
  rw [isSome_despawnPhase]
  have hm := isSome_spawnFold_mono luck
    (cellRange ((_latLngToCellId south west).i - 2)
      ((_latLngToCellId north east).i + 2)
      ((_latLngToCellId south west).j - 2)
      ((_latLngToCellId north east).j + 2)) st c h
  exact ⟨fun hx => hx.2, fun hx => ⟨hm, hx⟩⟩

set_option maxRecDepth 100000 in
attribute [local semireducible] Rat.ofScientific Rat.add Rat.sub Rat.mul Rat.inv in
/-- C6 counterexample: with the viewport collapsed onto cell (0,0) (the
unpadded grid box is exactly [0,0] x [0,0]), coordinate (2,2) is
rendered after a first viewport change; on a second viewport change with
the same bounds, (2,2) is outside the unpadded bounds yet its visual
cell is NOT destroyed — the despawn loop uses the padded bounds, not
the unpadded ones claimed. -/
theorem C6_claim_counterexample :
    _latLngToCellId wSouth0 wWest0 = cZero ∧
    (0 : Int) < 2 ∧
    ((jsGet (run wLuck [wMove0]).visibleCells { i := 2, j := 2 }).isSome
      = true) ∧
    ((jsGet (run wLuck [wMove0, wMove0]).visibleCells { i := 2, j := 2 }).isSome
      = true) :=
  ⟨by decide, by decide, by decide, by decide⟩

set_option maxRecDepth 100000 in
attribute [local semireducible] Rat.ofScientific Rat.add Rat.sub Rat.mul Rat.inv in
theorem C6_despawn_amended_witness :
    ((jsGet (run wLuck [wMove0]).visibleCells { i := 2, j := 2 }).isSome
      = true) ∧
    ((jsGet (moveendHandler wLuck (run wLuck [wMove0]) wSouth0 wWest0 wSouth0
        wWest0).visibleCells { i := 2, j := 2 }).isSome = true) := by
  refine ⟨by decide, ?_⟩
  have h := C6_despawn_amended wLuck (run wLuck [wMove0]) wSouth0 wWest0
    wSouth0 wWest0 { i := 2, j := 2 } (by decide)
  exact h.mpr (by constructor <;> [decide; constructor <;>
    [decide; constructor <;> [decide; decide]]])

/-- C7 as amended: the interactive flag of a rendered cell is set to
true at creation unconditionally (the source comment says: always
interactive so clicks work from any distance), so immediately after a
spawn the claimed equivalence can fail; it is however recomputed on
every player movement, after which the flag of every rendered cell
equals (Chebyshev distance to the player <= INTERACTION_RANGE). -/
theorem C7_interactivity_amended :
    (∀ (luck : String → ℚ) (m : JsMap Cell) (pos c : CellId) (gc : GameCell),
      (createCell luck m pos c).1 = some gc → gc.interactive = true) ∧
    (∀ (st : GameState) (dI dJ : Int) (c : CellId) (cell : GameCell),
      jsGet (movePlayer st dI dJ).visibleCells c = some cell →
      (cell.interactive = true ↔
        chebyshevDist c (movePlayer st dI dJ).playerCellPosition ≤
          INTERACTION_RANGE)) := by
  constructor
  · intro luck m pos c gc hgc
    by_cases hsp : SPAWN_CHANCE ≤ luck (luckKey c "spawn")
    · simp [createCell, hsp] at hgc
    · simp only [createCell, hsp, if_false, Bool.false_eq_true] at hgc
      injection hgc with hgc
      rw [← hgc]
  · intro st dI dJ c cell hc
    have hpos : (movePlayer st dI dJ).playerCellPosition =
        ⟨st.playerCellPosition.i + dI, st.playerCellPosition.j + dJ⟩ := rfl
    have h1 := jsGet_mapVals st.visibleCells
      (fun d g => { g with fillColor := getCellColor (chebyshevDist d
        ⟨st.playerCellPosition.i + dI, st.playerCellPosition.j + dJ⟩) }) c
    have h2 := jsGet_mapVals
      (st.visibleCells.map (fun p => (p.1,
        (fun d g => { g with fillColor := getCellColor (chebyshevDist d
          ⟨st.playerCellPosition.i + dI, st.playerCellPosition.j + dJ⟩) })
        p.1 p.2)))
      (fun d g => { g with interactive := (isInRange
        ⟨st.playerCellPosition.i + dI, st.playerCellPosition.j + dJ⟩
        d.i d.j) }) c
    have hc2 := h2.symm.trans hc
    rw [h1] at hc2
    cases hg : jsGet st.visibleCells c with
    | none => rw [hg] at hc2; exact absurd hc2 (by simp)
    | some g =>
        rw [hg] at hc2
        simp only [Option.map_some'] at hc2
        injection hc2 with hc2
        rw [← hc2, hpos]
        simp only [isInRange, chebyshevDist, Bool.and_eq_true, decide_eq_true_eq]
        omega

set_option maxRecDepth 100000 in
attribute [local semireducible] Rat.ofScientific Rat.add Rat.sub Rat.mul Rat.inv in
/-- C7 counterexample: after the far viewport change wMove4 the player
is still at (0,0) and the freshly spawned cell (6,6), at Chebyshev
distance 6 > 3, is rendered with interactive = true — the claimed
equivalence fails in this reachable state. -/
theorem C7_claim_counterexample :
    (jsGet (run wLuck [wMove4]).visibleCells { i := 6, j := 6 }).map
      GameCell.interactive = some true ∧
    (run wLuck [wMove4]).playerCellPosition = cZero ∧
    INTERACTION_RANGE <
      chebyshevDist { i := 6, j := 6 } (run wLuck [wMove4]).playerCellPosition :=
  ⟨by decide, by decide, by decide⟩

set_option maxRecDepth 100000 in
attribute [local semireducible] Rat.ofScientific Rat.add Rat.sub Rat.mul Rat.inv in
theorem C7_interactivity_amended_witness :
    ((createCell wLuck [] cZero cZero).1 = some
      { tokenValue := 1, tokenLabel := some 1, fillColor := "#ffffff",
        fillOpacity := 0.7, interactive := true }) ∧
    GameCell.interactive
      { tokenValue := 1, tokenLabel := some 1, fillColor := "#ffffff",
        fillOpacity := 0.7, interactive := true } = true ∧
    (jsGet (movePlayer (run wLuck [wMove4]) 1 0).visibleCells
      { i := 4, j := 3 } = some
      { tokenValue := 1, tokenLabel := some 1, fillColor := "#4a9eff",
        fillOpacity := 0.7, interactive := true }) ∧
    (GameCell.interactive
        { tokenValue := 1, tokenLabel := some 1, fillColor := "#4a9eff",
          fillOpacity := 0.7, interactive := true } = true ↔
      chebyshevDist { i := 4, j := 3 }
        (movePlayer (run wLuck [wMove4]) 1 0).playerCellPosition ≤
        INTERACTION_RANGE) := by
  refine ⟨by decide, ?_, by decide, ?_⟩
  · exact C7_interactivity_amended.1 wLuck [] cZero cZero _ (by decide)
  · exact C7_interactivity_amended.2 (run wLuck [wMove4]) 1 0
      { i := 4, j := 3 } _ (by decide)

theorem C3_get_spec_witness :
    (0 ≤ wLuck (luckKey cZero "value")) ∧
    (wLuck (luckKey cZero "value") < 1) ∧
    jsGet ([] : JsMap Cell) cZero = none ∧
    ((getCellTokenValue wLuck [] cZero).1 = 1 ∨
      (getCellTokenValue wLuck [] cZero).1 = 2 ∨
      (getCellTokenValue wLuck [] cZero).1 = 4) := by
  have h := C3_get_spec wLuck [] cZero (by norm_num [wLuck])
    (by norm_num [wLuck])
  exact ⟨by norm_num [wLuck], by norm_num [wLuck], rfl, (h.1 rfl).1⟩

set_option maxRecDepth 100000 in
attribute [local semireducible] Rat.ofScientific Rat.add Rat.sub Rat.mul Rat.inv in
theorem C10_zero_token_flow_witness :
    (clickCell (run wLuck wTraceZero) cZero).playerInventory = none ∧
    jsGet (clickCell (run wLuck wTraceZero) cZero).cellStateMap cZero =
      some { id := cZero, tokenValue := 0, isPickedUp := false } := by
  have h := C10_zero_token_flow (run wLuck wTraceZero) cZero wCellZero
    (by decide)
  exact h.2.1 (by decide) (by decide)
    { id := cZero, tokenValue := 1, isPickedUp := true } (by decide)

/-- The Store-level operations the flyweight claim quantifies over: a
direct read (getCellTokenValue), a spawn attempt of the moveend handler
for one candidate coordinate, and a despawn. -/
inductive StoreOp where
  | readOp (c : CellId)
  | spawnOp (c : CellId)
  | despawnOp (c : CellId)

def applyStoreOp (luck : String → ℚ) (st : GameState) : StoreOp → GameState
  | StoreOp.readOp c =>
      { st with cellStateMap := (getCellTokenValue luck st.cellStateMap c).2 }
  | StoreOp.spawnOp c => spawnOne luck st c
  | StoreOp.despawnOp c => despawnCell st c

/-- The coordinates on which an operation invokes the Store read (a
direct read always does; a spawn only when the coordinate is not
rendered and passes the spawn check; a despawn never does). -/
def opTouched (luck : String → ℚ) (st : GameState) : StoreOp → List CellId
  | StoreOp.readOp c => [c]
  | StoreOp.spawnOp c =>
      if jsHas st.visibleCells c then []
      else if SPAWN_CHANCE ≤ luck (luckKey c "spawn") then [] else [c]
  | StoreOp.despawnOp _ => []

def traceTouched (luck : String → ℚ) : GameState → List StoreOp → List CellId
  | _, [] => []
  | st, op :: ops =>
      opTouched luck st op ++ traceTouched luck (applyStoreOp luck st op) ops

lemma storeKeys_getCellTokenValue (luck : String → ℚ) (m : JsMap Cell)
    (c : CellId) :
    (jsKeys (getCellTokenValue luck m c).2).toFinset =
        insert c (jsKeys m).toFinset ∧
      ((jsKeys m).Nodup → (jsKeys (getCellTokenValue luck m c).2).Nodup) := by
  cases hg : jsGet m c with
  | some cs =>
      have hc : c ∈ (jsKeys m).toFinset := by
        rw [List.mem_toFinset]
        exact (mem_jsKeys_iff m c).mpr (by rw [hg]; rfl)
      have hred : (getCellTokenValue luck m c).2 = m := by
        by_cases hp : cs.isPickedUp <;> simp [getCellTokenValue, hg, hp]
      rw [hred]
      exact ⟨(Finset.insert_eq_self.mpr hc).symm, fun h => h⟩
  | none =>
      have hnotmem : c ∉ jsKeys m := by
        rw [mem_jsKeys_iff, hg]
        simp
      have habs : jsHas m c = false := by
        simp [jsHas, hg]
      have hred : (getCellTokenValue luck m c).2 = m ++
          [(c, { id := c
                 tokenValue := 2 ^ (⌊luck (luckKey c "value") * 3⌋).toNat
                 isPickedUp := false })] := by
        simp [getCellTokenValue, hg, jsSet_absent _ _ _ habs]
      rw [hred]
      constructor
      · simp [jsKeys, Finset.insert_eq, Finset.union_comm]
      · intro hnd
        simp only [jsKeys, List.map_append, List.map_cons, List.map_nil]
        rw [List.nodup_append]
        refine ⟨hnd, List.nodup_singleton c, ?_⟩
        intro a ha hac
        rw [List.mem_singleton] at hac
        subst hac
        exact hnotmem ha

lemma storeKeys_applyStoreOp (luck : String → ℚ) (st : GameState)
    (op : StoreOp) :
    (jsKeys (applyStoreOp luck st op).cellStateMap).toFinset =
        (jsKeys st.cellStateMap).toFinset ∪ (opTouched luck st op).toFinset ∧
      ((jsKeys st.cellStateMap).Nodup →
        (jsKeys (applyStoreOp luck st op).cellStateMap).Nodup) := by
  cases op with
  | readOp c =>
      obtain ⟨h1, h2⟩ := storeKeys_getCellTokenValue luck st.cellStateMap c
      refine ⟨?_, h2⟩
      rw [applyStoreOp]
      rw [h1]
      simp [opTouched, Finset.insert_eq, Finset.union_comm]
  | spawnOp c =>
      by_cases hvis : jsHas st.visibleCells c
      · have hred : spawnOne luck st c = st := by simp [spawnOne, hvis]
        simp [applyStoreOp, hred, opTouched, hvis]
      · by_cases hsp : SPAWN_CHANCE ≤ luck (luckKey c "spawn")
        · have hred : spawnOne luck st c = st := by
            simp [spawnOne, hvis, createCell, hsp]
          simp [applyStoreOp, hred, opTouched, hvis, hsp]
        · have hst : (spawnOne luck st c).cellStateMap =
              (getCellTokenValue luck st.cellStateMap c).2 := by
            cases hg : jsGet st.cellStateMap c with
            | some cs =>
                by_cases hp : cs.isPickedUp <;>
                  simp [spawnOne, hvis, createCell, hsp, getCellTokenValue,
                    hg, hp]
            | none =>
                simp [spawnOne, hvis, createCell, hsp, getCellTokenValue, hg]
          obtain ⟨h1, h2⟩ := storeKeys_getCellTokenValue luck st.cellStateMap c
          refine ⟨?_, ?_⟩
          · rw [applyStoreOp, hst, h1]
            simp [opTouched, hvis, hsp, Finset.insert_eq, Finset.union_comm]
          · intro hnd
            rw [applyStoreOp, hst]
            exact h2 hnd
  | despawnOp c =>
      rw [applyStoreOp]
      simp [despawnCell_cellStateMap, opTouched]

lemma storeKeys_foldStoreOps (luck : String → ℚ) (ops : List StoreOp) :
    ∀ st : GameState,
      ((jsKeys ((ops.foldl (applyStoreOp luck) st).cellStateMap)).toFinset =
        (jsKeys st.cellStateMap).toFinset ∪
          (traceTouched luck st ops).toFinset) ∧
      ((jsKeys st.cellStateMap).Nodup →
        (jsKeys ((ops.foldl (applyStoreOp luck) st).cellStateMap)).Nodup) := by
  induction ops with
  | nil => intro st; simp [traceTouched]
  | cons op t ih =>
      intro st
      obtain ⟨h1, h2⟩ := storeKeys_applyStoreOp luck st op
      obtain ⟨ih1, ih2⟩ := ih (applyStoreOp luck st op)
      rw [List.foldl_cons]
      constructor
      · rw [ih1, h1, traceTouched]
        rw [List.toFinset_append]
        rw [Finset.union_assoc]
      · intro hnd
        exact ih2 (h2 hnd)

/-- C4: starting from the empty Store, after any sequence of reads,
spawn attempts and despawns, the set of Store coordinates is exactly the
set of coordinates on which a read was invoked, and the Store size is
exactly the number N of distinct such coordinates; despawning never
touches the Store at all. -/
theorem C4_flyweight_bound (luck : String → ℚ) (ops : List StoreOp) :
    ((jsKeys ((ops.foldl (applyStoreOp luck) initialState).cellStateMap)).toFinset
      = (traceTouched luck initialState ops).toFinset) ∧
    (((ops.foldl (applyStoreOp luck) initialState).cellStateMap).length
      = (traceTouched luck initialState ops).toFinset.card) ∧
    (∀ (st : GameState) (k : CellId),
      (despawnCell st k).cellStateMap = st.cellStateMap) := by
  obtain ⟨h1, h2⟩ := storeKeys_foldStoreOps luck ops initialState
  have hinit : jsKeys initialState.cellStateMap = ([] : List CellId) := rfl
  have hkeys :
      (jsKeys ((ops.foldl (applyStoreOp luck) initialState).cellStateMap)).toFinset
        = (traceTouched luck initialState ops).toFinset := by
    rw [h1, hinit]
    simp
  refine ⟨hkeys, ?_, fun st k => despawnCell_cellStateMap st k⟩
  have hnd : (jsKeys ((ops.foldl (applyStoreOp luck)
      initialState).cellStateMap)).Nodup := h2 (by rw [hinit]; exact List.nodup_nil)
  have hlen : ((ops.foldl (applyStoreOp luck) initialState).cellStateMap).length
      = (jsKeys ((ops.foldl (applyStoreOp luck)
          initialState).cellStateMap)).length := by
    simp [jsKeys]
  rw [hlen, ← List.toFinset_card_of_nodup hnd, hkeys]
